import Mathlib

/-!
Verification development for the Notion workspace-export engine
(`notion_export.py`).  The definitions below are a shallow embedding of the
program's data model and operations: rich-text rendering, filename
sanitisation, CSV generation, block rendering, and the recursive
`export_pages` tree walk with its path registry and compare-and-write
logic.  Remote API fetches are represented by data carried on the embedded
objects (an item carries its already-fetched entries/children; an
environment carries oracle functions for the per-block remote calls).
Machine-level concerns that no claim touches (Backblaze upload, thread
pool scheduling of asset downloads) are not modelled.
-/

namespace NotionExport

/-! ## Rich text (`get_rich_text`, lines 264-288) -/

/-- One annotated text span, as consumed by `get_rich_text`:
`plain_text` plus the boolean annotation flags and an optional `href`. -/
structure RichText where
  plain_text : String
  code : Bool := false
  bold : Bool := false
  italic : Bool := false
  strikethrough : Bool := false
  underline : Bool := false
  href : Option String := none
deriving Repr, DecidableEq

/-- Rendering of a single span: the body of the `for` loop of
`get_rich_text`.  Each annotation conditionally rewraps `plain_text`, in
source order (code, bold, italic, strikethrough, underline), and a truthy
`href` (Python: `if href:`, so the empty string does not count) wraps the
result in a link. -/
def renderSpan (rt : RichText) : String :=
  let t := rt.plain_text
  let t := if rt.code then "`" ++ t ++ "`" else t
  let t := if rt.bold then "**" ++ t ++ "**" else t
  let t := if rt.italic then "*" ++ t ++ "*" else t
  let t := if rt.strikethrough then "~~" ++ t ++ "~~" else t
  let t := if rt.underline then "<u>" ++ t ++ "</u>" else t
  match rt.href with
  | some u => if u = "" then t else "[" ++ t ++ "](" ++ u ++ ")"
  | none => t

/-- `get_rich_text`: concatenate the renderings of all spans
(accumulation `text_content += plain_text`). -/
def get_rich_text (arr : List RichText) : String :=
  arr.foldl (fun acc rt => acc ++ renderSpan rt) ""

/-! ## Filename sanitisation (`sanitize_filename`, lines 178-181) -/

/-- The characters removed by `re.sub(r'[<>:"/\\|?*]', '', filename)`. -/
def badChar (c : Char) : Bool :=
  c = '<' || c = '>' || c = ':' || c = '"' || c = '/' || c = '\\' ||
  c = '|' || c = '?' || c = '*'

/-- ASCII whitespace stripped by Python's `str.strip()`. -/
def pyStripChar (c : Char) : Bool :=
  c = ' ' || c = '\t' || c = '\n' || c = '\r' || c = '\x0b' || c = '\x0c'

/-- `str.strip()` on a character list: drop stripped characters from both
ends. -/
def pyStrip (l : List Char) : List Char :=
  ((l.dropWhile pyStripChar).reverse.dropWhile pyStripChar).reverse

/-- `sanitize_filename`: delete the invalid filename characters, then
strip surrounding whitespace. -/
def sanitize_filename (s : String) : String :=
  String.mk (pyStrip (s.data.filter (fun c => !badChar c)))

/-! ## Path arithmetic (`os.path` operations used by the exporter) -/

/-- `os.path.join` for the relative, slash-separated paths the exporter
builds (the program never joins an absolute second component). -/
def pjoin (p q : String) : String :=
  if p = "" then q else p ++ "/" ++ q

/-- `os.path.basename`: the part after the last slash. -/
def basename (p : String) : String :=
  String.mk ((p.data.reverse.takeWhile (fun c => c ≠ '/')).reverse)

/-- `os.path.dirname`: the part before the last slash (empty when there is
no slash). -/
def dirname (p : String) : String :=
  String.mk (((p.data.reverse.dropWhile (fun c => c ≠ '/')).drop 1).reverse)

/-- Split a path on slashes, dropping empty components. -/
def splitPath (p : String) : List String :=
  (p.splitOn "/").filter (fun s => s ≠ "")

/-- Drop the longest common prefix of two component lists, returning both
leftovers. -/
def dropCommon : List String → List String → List String × List String
  | a :: as, b :: bs => if a = b then dropCommon as bs else (a :: as, b :: bs)
  | as, bs => (as, bs)

/-- `os.path.relpath p base`: walk up out of `base` with `..` components,
then down into `p`. -/
def relpath (p base : String) : String :=
  let r := dropCommon (splitPath p) (splitPath base)
  let parts := (List.replicate r.2.length "..") ++ r.1
  if parts = [] then "." else String.intercalate "/" parts

/-- Basename of a URL after stripping the query string
(`os.path.basename(url.split("?")[0])`). -/
def urlBase (u : String) : String :=
  basename (((u.splitOn "?").headD u))

/-! ## CSV writing (`csv.writer` with `QUOTE_ALL` and `\n` terminator) -/

/-- Concatenation of a list of strings (the successive `writer.writerow`
calls appending to one output buffer). -/
def joinAll : List String → String
  | [] => ""
  | s :: rest => s ++ joinAll rest

/-- Double every double quote, as the CSV writer does inside a quoted
field. -/
def csvEscape (s : String) : String :=
  String.mk (s.data.flatMap (fun c => if c = '"' then ['"', '"'] else [c]))

/-- One fully-quoted CSV field. -/
def csvField (s : String) : String := "\"" ++ csvEscape s ++ "\""

/-- One CSV row: every field quoted (`QUOTE_ALL`), comma-separated,
terminated by `\n`. -/
def csvRow (r : List String) : String :=
  String.intercalate "," (r.map csvField) ++ "\n"

/-! ## Property values (`extract_property_value`, lines 624-693)

Each constructor mirrors one `prop_type` branch.  A constructor carries
the data the branch actually reads from the property dictionary. -/

inductive PropVal where
  /-- `title` property: a rich-text array. -/
  | title (spans : List RichText)
  /-- `rich_text` property: a rich-text array. -/
  | rich_text (spans : List RichText)
  /-- `number`: `str(prop.get('number', ''))`; a JSON `null` stringifies
  to `"None"`. -/
  | number (n : Option Int)
  /-- `select`: `none` is a JSON `null` cell (the standard empty-cell
  shape), on which `select.get('name', '')` raises `AttributeError`;
  `some name?` is a select object whose `name` may be missing. -/
  | select (sel : Option (Option String))
  /-- `multi_select`: the option names, comma-joined. -/
  | multi_select (names : List String)
  /-- `date`: `none` is a JSON `null` cell, on which
  `date.get('start', '')` raises `AttributeError`; `some start?` is a
  date object whose `start` may be missing. -/
  | date (d : Option (Option String))
  /-- `checkbox`: `str(bool)`. -/
  | checkbox (b : Bool)
  /-- `url` / `email` / `phone_number` / `created_time` /
  `last_edited_time`: the raw string. -/
  | rawString (s : String)
  /-- `people`: the person names, comma-joined. -/
  | people (names : List String)
  /-- `files`: the file URLs, comma-joined. -/
  | files (urls : List String)
  /-- `formula`: `str(formula.get(formula_type, ''))`, carried as the
  resulting string. -/
  | formula (value : String)
  /-- `relation`: the related page ids, comma-joined. -/
  | relation (ids : List String)
  /-- `rollup` of `array` type: recursive extraction, comma-joined. -/
  | rollup_array (items : List PropVal)
  /-- `rollup` of any other type: `str(rollup.get(rollup_type, ''))`. -/
  | rollup_other (value : String)
  /-- `status`: `none` is a JSON `null` cell, on which
  `status.get('name', '')` raises `AttributeError`; `some name?` is a
  status object whose `name` may be missing.  (The array- and
  object-valued property types — `multi_select`, `people`, `files`,
  `relation`, `formula`, `rollup` — are never `null` in the consumed
  API, so they are carried directly.) -/
  | status (stat : Option (Option String))
  /-- `button`: rendered as the literal `[Button]`. -/
  | button
  /-- Any unrecognised type: the fallback stringification of
  `prop.get(prop_type)` (`''` when that value is `None`). -/
  | unknownProp (tag : String) (value : Option String)
deriving Repr

mutual

/-- `extract_property_value`: one CSV cell from one property value.
The function has no `try` of its own, so a raised exception — modelled
as `Except.error` — propagates to the caller; a `null` select, date or
status cell raises `AttributeError` on the `.get` call. -/
def extract_property_value : PropVal → Except String String
  | .title spans => .ok (get_rich_text spans)
  | .rich_text spans => .ok (get_rich_text spans)
  | .number n => match n with
     | some v => .ok (toString v)
     | none => .ok "None"
  | .select sel => match sel with
     | none => .error "AttributeError"
     | some name => .ok (name.getD "")
  | .multi_select names => .ok (String.intercalate ", " names)
  | .date d => match d with
     | none => .error "AttributeError"
     | some start => .ok (start.getD "")
  | .checkbox b => .ok (if b then "True" else "False")
  | .rawString s => .ok s
  | .people names => .ok (String.intercalate ", " names)
  | .files urls => .ok (String.intercalate ", " urls)
  | .formula value => .ok value
  | .relation ids => .ok (String.intercalate ", " ids)
  | .rollup_array items => match extractValues items with
     | .ok vs => .ok (String.intercalate ", " vs)
     | .error e => .error e
  | .rollup_other value => .ok value
  | .status stat => match stat with
     | none => .error "AttributeError"
     | some name => .ok (name.getD "")
  | .button => .ok "[Button]"
  | .unknownProp _ value => .ok (value.getD "")

/-- The list comprehension inside the rollup-array branch: left-to-right,
the first raised exception propagates. -/
def extractValues : List PropVal → Except String (List String)
  | [] => .ok []
  | p :: ps => match extract_property_value p, extractValues ps with
     | .ok v, .ok vs => .ok (v :: vs)
     | .error e, _ => .error e
     | _, .error e => .error e

end

/-! ## Tabular export (`export_database_to_csv`, lines 573-622) -/

/-- A database as `export_database_to_csv` consumes it: its id, the
declaration-ordered keys of `database['properties']`, and the query
results (each entry's `properties` dictionary as an association list).
The paginated `databases.query` fetch is represented by the `entries`
field holding the fully drained result list. -/
structure DatabaseObj where
  id : String
  propNames : List String
  entries : List (List (String × PropVal))
deriving Repr

/-- One cell: look the property up in the entry's `properties` dict; a
missing key yields the empty dict, whose `type` is `None`, which the
fallback branch turns into `''` without raising. -/
def entryCell (e : List (String × PropVal)) (h : String) : Except String String :=
  match e.lookup h with
  | some p => extract_property_value p
  | none => .ok ""

/-- One CSV data row of an entry (the inner `for header in headers`
loop); the first raised extraction aborts the row. -/
def entryRow (propNames : List String) (e : List (String × PropVal)) :
    Except String (List String) :=
  match propNames with
  | [] => .ok []
  | h :: hs => match entryCell e h, entryRow hs e with
    | .ok v, .ok vs => .ok (v :: vs)
    | .error err, _ => .error err
    | _, .error err => .error err

/-- The outer `for entry in all_entries` loop; the first raised
extraction aborts the whole write. -/
def allRows (propNames : List String) :
    List (List (String × PropVal)) → Except String (List (List String))
  | [] => .ok []
  | e :: es => match entryRow propNames e, allRows propNames es with
    | .ok r, .ok rs => .ok (r :: rs)
    | .error err, _ => .error err
    | _, .error err => .error err

/-- `export_database_to_csv`: with no entries, log and return `''`;
otherwise one fully-quoted header row of the property names followed by
one row per entry, in entry order.  An exception raised while extracting
any cell propagates to the function's own `except` (lines 619-622),
which logs and returns `''`, discarding the partially-written buffer. -/
def export_database_to_csv (db : DatabaseObj) : String :=
  if db.entries.isEmpty then ""
  else
    match allRows db.propNames db.entries with
    | .error _ => ""
    | .ok rows => csvRow db.propNames ++ joinAll (rows.map csvRow)

/-! ## Blocks and the block renderer (`process_block`, lines 290-485, and
`blocks_to_markdown`, lines 526-531)

A block's `children` field holds the sub-blocks that
`retrieve_all_blocks` attached under the `"children"` key; the separate
`has_children` flag mirrors the `block.get("has_children")` test that
gates child rendering.  `Block` and `BlockList` are a mutual pair so that
the renderer is structurally recursive. -/

mutual

inductive Block where
  | paragraph (rich_text : List RichText) (has_children : Bool) (children : BlockList)
  | heading_1 (rich_text : List RichText)
  | heading_2 (rich_text : List RichText)
  | heading_3 (rich_text : List RichText)
  | bulleted_list_item (rich_text : List RichText) (has_children : Bool) (children : BlockList)
  | numbered_list_item (rich_text : List RichText) (has_children : Bool) (children : BlockList)
  | to_do (rich_text : List RichText) (checked : Bool) (has_children : Bool) (children : BlockList)
  | toggle (rich_text : List RichText) (has_children : Bool) (children : BlockList)
  | quote (rich_text : List RichText)
  | code (language : String) (rich_text : List RichText)
  | divider
  | bookmark (url : String)
  | child_page (id : String) (title : String)
  | child_database (id : String)
  | image (url : String) (caption : List RichText)
  | file (url : String) (caption : List RichText)
  | pdf (url : String) (caption : List RichText)
  | callout (rich_text : List RichText) (emoji : Option String)
  | table (id : String)
  | table_row (cells : List (List RichText))
  | column_list (has_children : Bool) (children : BlockList)
  | column (has_children : Bool) (children : BlockList)
  | unsupported (ty : String)

inductive BlockList where
  | nil
  | cons (head : Block) (tail : BlockList)

end

/-- The environment a block render runs in: configuration read from the
process globals plus oracles for the remote/filesystem calls the block
branches perform (`get_relative_path`, `notion.databases.retrieve`,
`retrieve_all_blocks` on a table id, `os.makedirs`).  An oracle returning
an error stands for the call raising an exception. -/
structure Env where
  exportPath : String
  localBackup : Bool
  registry : String → Option String
  retrieveDatabase : String → Except String String
  tableRows : String → List Block
  makedirsWorks : String → Bool

/-- A log entry emitted while rendering. -/
inductive Log where
  | warn (msg : String)
  | error (msg : String)
  | info (msg : String)
deriving Repr, DecidableEq

/-- The `table_row` filter of the table branch. -/
def tableRowCells : Block → Option (List (List RichText))
  | .table_row cells => some cells
  | _ => none

mutual

/-- `process_block`: one block to a markdown fragment plus its log
entries.  The surrounding `try`/`except` of the source never lets an
exception escape: branches whose remote/filesystem call fails return the
content accumulated before the raise (always empty in those branches)
plus an error log entry.  Block kinds without a branch — including
`column_list` and `column` — fall through to the `else` arm: a warning,
no markup, children not rendered. -/
def process_block (env : Env) (b : Block) (pagePath : Option String) :
    String × List Log :=
  match b with
  | .paragraph rt hc ch =>
    let child := if hc then blocks_to_markdown env ch pagePath else ("", [])
    (get_rich_text rt ++ "\n\n" ++ child.1, child.2)
  | .heading_1 rt => ("# " ++ get_rich_text rt ++ "\n\n", [])
  | .heading_2 rt => ("## " ++ get_rich_text rt ++ "\n\n", [])
  | .heading_3 rt => ("### " ++ get_rich_text rt ++ "\n\n", [])
  | .bulleted_list_item rt hc ch =>
    let child := if hc then blocks_to_markdown env ch pagePath else ("", [])
    ("- " ++ get_rich_text rt ++ "\n" ++ child.1, child.2)
  | .numbered_list_item rt hc ch =>
    let child := if hc then blocks_to_markdown env ch pagePath else ("", [])
    ("1. " ++ get_rich_text rt ++ "\n" ++ child.1, child.2)
  | .to_do rt checked hc ch =>
    let checkbox := if checked then "[x]" else "[ ]"
    let child := if hc then blocks_to_markdown env ch pagePath else ("", [])
    (checkbox ++ " " ++ get_rich_text rt ++ "\n" ++ child.1, child.2)
  | .toggle rt hc ch =>
    let child := if hc then blocks_to_markdown env ch pagePath else ("", [])
    ("<details><summary>" ++ get_rich_text rt ++ "</summary>\n" ++ child.1 ++
      "</details>\n", child.2)
  | .quote rt => ("> " ++ get_rich_text rt ++ "\n\n", [])
  | .code language rt =>
    let text := get_rich_text rt
    if language.toLower = "plain text" || language = "" then
      ("```\n" ++ text ++ "\n```\n", [])
    else
      ("```" ++ language ++ "\n" ++ text ++ "\n```\n", [])
  | .divider => ("---\n\n", [])
  | .bookmark url => ("[Bookmark](" ++ url ++ ")\n\n", [])
  | .child_page id title =>
    let sanitized := sanitize_filename title
    match env.registry id with
    | some rel =>
      match pagePath with
      | some p =>
        let linkPath :=
          pjoin (relpath (pjoin env.exportPath rel) p) (sanitized ++ ".md")
        ("[" ++ title ++ "](" ++ linkPath ++ ")\n\n", [])
      | none =>
        ("", [.error "Error processing block child_page: TypeError"])
    | none =>
      let linkPath := pjoin sanitized (sanitized ++ ".md")
      ("[" ++ title ++ "](" ++ linkPath ++ ")\n\n", [])
  | .child_database id =>
    match env.retrieveDatabase id with
    | .error e => ("", [.error ("Error processing block child_database: " ++ e)])
    | .ok title =>
      let sanitized := sanitize_filename title
      match env.registry id with
      | some rel =>
        match pagePath with
        | some p =>
          let linkPath :=
            pjoin (relpath (pjoin env.exportPath rel) p) (sanitized ++ ".csv")
          ("[" ++ title ++ " Database](" ++ linkPath ++ ")\n\n", [])
        | none =>
          ("", [.error "Error processing block child_database: TypeError"])
      | none =>
        let linkPath := pjoin sanitized (sanitized ++ ".csv")
        ("[" ++ title ++ " Database](" ++ linkPath ++ ")\n\n", [])
  | .image url caption =>
    let cap := get_rich_text caption
    match pagePath with
    | some p =>
      if env.localBackup then
        let imagesDir := pjoin p "images"
        if env.makedirsWorks imagesDir then
          let fname := pjoin imagesDir (urlBase url)
          ("![" ++ cap ++ "](" ++ relpath fname p ++ ")\n\n", [])
        else ("", [.error "Error processing block image: OSError"])
      else ("![" ++ cap ++ "](" ++ url ++ ")\n\n", [])
    | none => ("![" ++ cap ++ "](" ++ url ++ ")\n\n", [])
  | .file url caption =>
    let cap := get_rich_text caption
    let shown := if cap = "" then "File" else cap
    match pagePath with
    | some p =>
      if env.localBackup then
        let filesDir := pjoin p "files"
        if env.makedirsWorks filesDir then
          let fname := pjoin filesDir (urlBase url)
          ("[" ++ shown ++ "](" ++ relpath fname p ++ ")\n\n", [])
        else ("", [.error "Error processing block file: OSError"])
      else ("[" ++ shown ++ "](" ++ url ++ ")\n\n", [])
    | none => ("[" ++ shown ++ "](" ++ url ++ ")\n\n", [])
  | .pdf url caption =>
    let cap := get_rich_text caption
    let shown := if cap = "" then "PDF" else cap
    match pagePath with
    | some p =>
      if env.localBackup then
        let filesDir := pjoin p "files"
        if env.makedirsWorks filesDir then
          let fname := pjoin filesDir (urlBase url)
          ("[" ++ shown ++ "](" ++ relpath fname p ++ ")\n\n", [])
        else ("", [.error "Error processing block pdf: OSError"])
      else ("[" ++ shown ++ "](" ++ url ++ ")\n\n", [])
    | none => ("[" ++ shown ++ "](" ++ url ++ ")\n\n", [])
  | .callout rt emoji =>
    let text := get_rich_text rt
    let text := match emoji with
      | some e => e ++ " " ++ text
      | none => text
    ("> **Callout:** " ++ text ++ "\n\n", [])
  | .table id =>
    let trows := env.tableRows id
    if trows.isEmpty then
      ("", [.warn ("No rows found for table " ++ id)])
    else
      match pagePath with
      | some p =>
        let csvName := "table_" ++ id ++ ".csv"
        ("[View Table](" ++ csvName ++ ")\n\n",
         [.info ("Exported table to " ++ pjoin p csvName)])
      | none => ("", [.error "Error processing block table: TypeError"])
  | .table_row _ => ("", [.warn "Unsupported block type: table_row"])
  | .column_list _ _ => ("", [.warn "Unsupported block type: column_list"])
  | .column _ _ => ("", [.warn "Unsupported block type: column"])
  | .unsupported ty => ("", [.warn ("Unsupported block type: " ++ ty)])

/-- `blocks_to_markdown`: concatenate the per-block fragments (and their
logs) in order. -/
def blocks_to_markdown (env : Env) (bs : BlockList) (pagePath : Option String) :
    String × List Log :=
  match bs with
  | .nil => ("", [])
  | .cons b rest =>
    let r := process_block env b pagePath
    let rs := blocks_to_markdown env rest pagePath
    (r.1 ++ rs.1, r.2 ++ rs.2)

end

/-! ## Filesystem, registry and run state for the tree walker -/

/-- The local filesystem as the walker observes it: a set of directory
paths and a mapping from file path to file contents. -/
structure FS where
  dirs : List String
  files : List (String × String)
deriving Repr, DecidableEq

/-- `os.path.exists`. -/
def FS.existsPath (fs : FS) (p : String) : Bool :=
  fs.dirs.contains p || (fs.files.map Prod.fst).contains p

/-- Open-and-read of a file (`is_content_same`'s read). -/
def FS.readFile (fs : FS) (p : String) : Option String :=
  fs.files.lookup p

/-- `open(path, 'w')` followed by a full write. -/
def FS.writeFile (fs : FS) (p c : String) : FS :=
  { fs with files := (p, c) :: fs.files.filter (fun q => q.1 ≠ p) }

/-- `if not os.path.exists(p): os.makedirs(p)`. -/
def FS.ensureDir (fs : FS) (p : String) : FS :=
  if fs.existsPath p then fs else { fs with dirs := fs.dirs ++ [p] }

/-- Rewrite one path under a directory rename. -/
def reroot (oldP newP p : String) : String :=
  if p = oldP then newP
  else if (oldP ++ "/").data.isPrefixOf p.data then
    newP ++ "/" ++ String.mk (p.data.drop (oldP.data.length + 1))
  else p

/-- Does anything (directory or file) live strictly under `p`? -/
def FS.hasEntryUnder (fs : FS) (p : String) : Bool :=
  fs.dirs.any (fun q => (p ++ "/").data.isPrefixOf q.data)
    || fs.files.any (fun q => (p ++ "/").data.isPrefixOf q.1.data)

/-- `os.rename` of a directory, with Linux semantics: it raises (modelled
as `none`) when the source is missing, when the target is an existing
file (`ENOTDIR`), or when the target is a *non-empty* directory
(`ENOTEMPTY`) — the collision failure mode the registry design worries
about.  An existing **empty** directory at the target is silently
replaced.  On success the source directory and everything under it moves
atomically. -/
def os_rename (fs : FS) (oldP newP : String) : Option FS :=
  if !fs.existsPath oldP then none
  else if (fs.files.map Prod.fst).contains newP then none
  else if fs.hasEntryUnder newP then none
  else some
    { dirs := (fs.dirs.filter (fun q => q ≠ newP)).map (reroot oldP newP),
      files := fs.files.map (fun q => (reroot oldP newP q.1, q.2)) }

/-- `update_relative_path`: update the row for `id` or insert a new
one. -/
def regUpdate (r : List (String × String)) (id p : String) :
    List (String × String) :=
  if (r.lookup id).isSome then
    r.map (fun q => if q.1 = id then (q.1, p) else q)
  else r ++ [(id, p)]

/-- Observable events of one run, in program order.  `locate` marks entry
into the path-determination section for a document, `renamed` a
successful directory rename, `rendered` the completion of the document's
own render, `saveStep` the compare-and-write section (with whether it
wrote), `warnObj`/`failedExport` the two logged `continue`s, and
`errorCaught` the `except` clause of `export_pages`. -/
inductive Ev where
  | locate (id : String)
  | renamed (id : String) (newPath : String)
  | rendered (id : String)
  | saveStep (id : String) (wrote : Bool)
  | warnObj (id : String)
  | failedExport (id : String)
  | errorCaught
deriving Repr, DecidableEq

/-- Run state threaded through the walk: filesystem, the persistent page
registry (`page_map`), and the event trace. -/
structure St where
  fs : FS
  reg : List (String × String)
  trace : List Ev
deriving Repr, DecidableEq

/-- Append one event. -/
def St.log (st : St) (e : Ev) : St := { st with trace := st.trace ++ [e] }

/-- The configuration globals the walker reads. -/
structure Cfg where
  exportPath : String
  rootDirName : String
  localBackup : Bool
deriving Repr

/-- The `while` loop of `get_unique_directory_name`, with fuel; the
entry point always supplies more fuel than there are directory entries,
so the fuel never runs out. -/
def uniqueNameLoop (fs : FS) (parent base : String) : Nat → Nat → String
  | count, 0 => base ++ " (" ++ toString count ++ ")"
  | count, fuel+1 =>
    let name := base ++ " (" ++ toString count ++ ")"
    if fs.existsPath (pjoin parent name) then
      uniqueNameLoop fs parent base (count + 1) fuel
    else name

/-- `get_unique_directory_name` (lines 143-149): append ` (1)`, ` (2)`, …
until no sibling of that name exists. -/
def get_unique_directory_name (fs : FS) (parent base : String) : String :=
  if fs.existsPath (pjoin parent base) then
    uniqueNameLoop fs parent base 1 (fs.dirs.length + fs.files.length + 1)
  else base

/-! ## Compare-and-write (`is_content_same`, lines 544-547, and the save
section of `export_pages`, lines 796-810) -/

/-- Lines 803-810: write unless the file exists with identical bytes. -/
def save_if_changed (fs : FS) (filePath content : String) : FS × Bool :=
  match fs.readFile filePath with
  | none => (fs.writeFile filePath content, true)
  | some old =>
    if old = content then (fs, false)
    else (fs.writeFile filePath content, true)

/-- The whole local-persistence decision for one item, lines 796-810: an
empty render hits `if not content: … continue` and is never written;
otherwise, when local backup is enabled, compare-and-write. -/
def saveOrSkip (localBackup : Bool) (fs : FS) (filePath content : String) :
    FS × Bool :=
  if content = "" then (fs, false)
  else if localBackup then save_if_changed fs filePath content
  else (fs, false)

/-! ## Items and the tree walk (`export_pages`, lines 723-824)

An `Item` is a page or database as the walker sees it after fetching:
its id, current title, object kind, rendered artifact (the result of
`page_to_markdown` / `export_database_to_csv`, which are pure given the
fetched data), its database entries (`get_database_entries`) and its
child pages/databases (`get_child_pages`). -/

inductive Obj where
  | page
  | database
  | other
deriving Repr, DecidableEq

mutual

inductive Item where
  | mk (id title : String) (obj : Obj) (content : String)
       (entries children : ItemList)

inductive ItemList where
  | nil
  | cons (head : Item) (tail : ItemList)

end

def Item.id : Item → String
  | .mk i _ _ _ _ _ => i

def Item.title : Item → String
  | .mk _ t _ _ _ _ => t

def Item.obj : Item → Obj
  | .mk _ _ o _ _ _ => o

def Item.content : Item → String
  | .mk _ _ _ c _ _ => c

def Item.entries : Item → ItemList
  | .mk _ _ _ _ e _ => e

def Item.children : Item → ItemList
  | .mk _ _ _ _ _ ch => ch

/-- Python truthiness of the fetched list. -/
def ItemList.isNil : ItemList → Bool
  | .nil => true
  | .cons _ _ => false

/-- Lines 772-778: the output file name by object kind; `none` means the
`Unknown object type` warning and `continue`. -/
def fileNameOf (obj : Obj) (title : String) : Option String :=
  match obj with
  | .database => some (sanitize_filename title ++ ".csv")
  | .page => some (sanitize_filename title ++ ".md")
  | .other => none

/-- Lines 754-770: no usable registry entry — pick the base directory
(the parent path, or `EXPORT_PATH/ROOT_DIR_NAME` at top level, created if
missing), disambiguate collisions, record the mapping, create the
directory. -/
def freshAssign (cfg : Cfg) (st : St) (parentPath : String) (id title : String) :
    St × Option String :=
  let sanitized := sanitize_filename title
  let basePath :=
    if parentPath ≠ "" then parentPath else pjoin cfg.exportPath cfg.rootDirName
  let st := if parentPath ≠ "" then st else { st with fs := st.fs.ensureDir basePath }
  let relBase := relpath basePath cfg.exportPath
  let dirName := get_unique_directory_name st.fs basePath sanitized
  let path := pjoin basePath dirName
  let rel := pjoin relBase dirName
  let st := { st with reg := regUpdate st.reg id rel }
  ({ st with fs := st.fs.ensureDir path }, some path)

/-- Lines 732-770: determine the item's export directory.  With a truthy
registry entry whose on-disk basename no longer equals the sanitized
title, `os.rename` is attempted *before* the registry update; a rename
failure raises (`none`), leaving registry and filesystem untouched.
A falsy entry (absent or `''`) takes the fresh-assignment branch. -/
def locateItem (cfg : Cfg) (st : St) (parentPath : String) (id title : String) :
    St × Option String :=
  let sanitized := sanitize_filename title
  let st := st.log (Ev.locate id)
  match st.reg.lookup id with
  | some rel =>
    if rel = "" then freshAssign cfg st parentPath id title
    else
      let path0 := pjoin cfg.exportPath rel
      if basename path0 ≠ sanitized then
        let newPath := pjoin (dirname path0) sanitized
        match os_rename st.fs path0 newPath with
        | none => (st, none)
        | some fs1 =>
          let st := { st with fs := fs1 }
          let st := { st with reg := regUpdate st.reg id (relpath newPath cfg.exportPath) }
          let st := st.log (Ev.renamed id newPath)
          ({ st with fs := st.fs.ensureDir newPath }, some newPath)
      else ({ st with fs := st.fs.ensureDir path0 }, some path0)
  | none => freshAssign cfg st parentPath id title

/-- Lines 729-730 at function entry: create `EXPORT_PATH` when local
backup is on. -/
def ensureExportRoot (cfg : Cfg) (st : St) : St :=
  if cfg.localBackup then { st with fs := st.fs.ensureDir cfg.exportPath } else st

/-- The `except` clause at lines 822-824: a raised exception is logged
and the function returns; it never propagates to the caller. -/
def catchSt (r : St × Bool) : St :=
  if r.2 then r.1.log Ev.errorCaught else r.1

/-- Lines 803-810: the compare-and-write section for one item, entered
only with nonempty content; performed only when local backup is
enabled. -/
def savePhase (cfg : Cfg) (st2 : St) (id filePath content : String) : St :=
  if cfg.localBackup then
    let pr := save_if_changed st2.fs filePath content
    St.log { st2 with fs := pr.1 } (Ev.saveStep id pr.2)
  else st2

mutual

/-- The body of the `for` loop of `export_pages` for one item.  The
second component is `true` when the body raised (only `os.rename` raises
in this model); the exception then aborts the enclosing loop and is
caught by `export_pages`'s own `except`.  Recursive `export_pages` calls
(database entries at line 790, children at line 818) catch their own
exceptions and so never raise here. -/
def exportItem (cfg : Cfg) (st : St) (parentPath : String) : Item → St × Bool
  | .mk id title obj content entries children =>
    match locateItem cfg st parentPath id title with
    | (st1, none) => (st1, true)
    | (st1, some path) =>
      match fileNameOf obj title with
      | none => (st1.log (Ev.warnObj id), false)
      | some fname =>
        let filePath := pjoin path fname
        let st2 := st1.log (Ev.rendered id)
        let st2 :=
          if obj = Obj.database && !entries.isNil then
            catchSt (exportLoop cfg (ensureExportRoot cfg st2) path entries)
          else st2
        if content = "" then (st2.log (Ev.failedExport id), false)
        else
          let st3 := savePhase cfg st2 id filePath content
          let st4 :=
            if children.isNil then st3
            else catchSt (exportLoop cfg (ensureExportRoot cfg st3) path children)
          (st4, false)

/-- The `for` loop of `export_pages`: process items in order; a raised
exception aborts the remaining iterations. -/
def exportLoop (cfg : Cfg) (st : St) (parentPath : String) : ItemList → St × Bool
  | .nil => (st, false)
  | .cons it rest =>
    let r := exportItem cfg st parentPath it
    if r.2 then (r.1, true)
    else exportLoop cfg r.1 parentPath rest

end

/-- `export_pages` (lines 723-824): ensure the export root, run the for
loop, catch any exception. -/
def export_pages (cfg : Cfg) (st : St) (items : ItemList) (parentPath : String) : St :=
  catchSt (exportLoop cfg (ensureExportRoot cfg st) parentPath items)

/-! ## Spec-side definitions used to state claims -/

/-- The spec's per-style wrapper: wrap `s` in `l`/`r` when the flag is
set. -/
def wrapIf (b : Bool) (l r s : String) : String :=
  if b then l ++ s ++ r else s

/-- The spec's hyperlink wrapper, applied when a (truthy) link target is
present. -/
def wrapHref (h : Option String) (s : String) : String :=
  match h with
  | some u => if u = "" then s else "[" ++ s ++ "](" ++ u ++ ")"
  | none => s

/-- Flatten a `BlockList` for statements about per-block renders. -/
def BlockList.toList : BlockList → List Block
  | .nil => []
  | .cons b tl => b :: tl.toList

/-! ## Shared lemmas -/

theorem str_empty_append (s : String) : "" ++ s = s := rfl

theorem str_append_empty (s : String) : s ++ "" = s := by
  apply String.ext
  show s.data ++ [] = s.data
  simp

theorem get_rich_text_shift (xs : List RichText) (acc : String) :
    xs.foldl (fun a rt => a ++ renderSpan rt) acc = acc ++ get_rich_text xs := by
  induction xs generalizing acc with
  | nil => simp [get_rich_text, str_append_empty]
  | cons x xs ih =>
    show xs.foldl _ (acc ++ renderSpan x) = acc ++ get_rich_text (x :: xs)
    rw [ih]
    have hx : get_rich_text (x :: xs) = renderSpan x ++ get_rich_text xs := by
      show xs.foldl _ ("" ++ renderSpan x) = _
      rw [ih]
      rfl
    rw [hx, String.append_assoc]

theorem blocks_to_markdown_join (env : Env) (pagePath : Option String) :
    ∀ bs : BlockList,
      (blocks_to_markdown env bs pagePath).1
        = joinAll (bs.toList.map (fun b => (process_block env b pagePath).1))
  | .nil => rfl
  | .cons b tl => by
    show (process_block env b pagePath).1 ++ (blocks_to_markdown env tl pagePath).1 = _
    rw [blocks_to_markdown_join env pagePath tl]
    rfl

/-- Environment used by the concrete examples: local backup on, nothing
registered yet, the child-database retrieval raising an HTTP error, no
table rows, and a working filesystem. -/
def exEnv : Env where
  exportPath := "export"
  localBackup := true
  registry := fun _ => none
  retrieveDatabase := fun _ => Except.error "HTTPError"
  tableRows := fun _ => []
  makedirsWorks := fun _ => true

/-! ## C9 -/

/-- C9: rich-text rendering is a concatenation homomorphism — rendering a
concatenation of span sequences is the concatenation of the renders, and
the empty sequence renders to the empty string. -/
theorem rich_text_concat_homomorphism :
    (∀ xs ys : List RichText,
      get_rich_text (xs ++ ys) = get_rich_text xs ++ get_rich_text ys)
    ∧ get_rich_text [] = "" := by
  constructor
  · intro xs ys
    show (xs ++ ys).foldl _ "" = _
    rw [List.foldl_append]
    exact get_rich_text_shift ys (get_rich_text xs)
  · rfl

/-! ## C4 -/

/-- C4: style wrappers are applied in the fixed order code, bold, italic,
strikethrough, underline (code innermost), a bold+code span renders with
the backtick-wrapped text inside the bold markers, and a present
(non-empty) link target wraps the whole styled text outermost. -/
theorem rich_text_style_nesting :
    (∀ rt : RichText, renderSpan rt =
      wrapHref rt.href (wrapIf rt.underline "<u>" "</u>"
        (wrapIf rt.strikethrough "~~" "~~" (wrapIf rt.italic "*" "*"
          (wrapIf rt.bold "**" "**" (wrapIf rt.code "`" "`" rt.plain_text))))))
    ∧ renderSpan { plain_text := "bold code", code := true, bold := true }
        = "**`bold code`**"
    ∧ (∀ t u : String, u ≠ "" →
        renderSpan { plain_text := t, code := true, bold := true, italic := true,
                     strikethrough := true, underline := true, href := some u }
          = "[" ++ ("<u>" ++ ("~~" ++ ("*" ++ ("**" ++ ("`" ++ t ++ "`") ++ "**")
              ++ "*") ++ "~~") ++ "</u>") ++ "](" ++ u ++ ")") := by
  refine ⟨?_, rfl, ?_⟩
  · intro rt
    rcases rt with ⟨t, c, b, i, s, u, h⟩
    cases h <;> simp [renderSpan, wrapIf, wrapHref]
  · intro t u hu
    simp [renderSpan, hu, String.append_assoc]

/-- Witness for C4's hyperlink clause at a concrete span. -/
theorem rich_text_style_nesting_witness :
    renderSpan { plain_text := "x", code := true, bold := true, italic := true,
                 strikethrough := true, underline := true, href := some "u" }
      = "[<u>~~***`x`***~~</u>](u)" := by
  have h := rich_text_style_nesting.2.2 "x" "u" (by decide)
  simpa using h

/-! ## C8 -/

/-- C8: a page holding exactly one heading-2 block with text `Intro` and
one unchecked to-do block with text `Buy milk` renders to exactly
`"## Intro\n\n[ ] Buy milk\n"`. -/
theorem heading_todo_render_example :
    (blocks_to_markdown exEnv
      (BlockList.cons (Block.heading_2 [{ plain_text := "Intro" }])
        (BlockList.cons
          (Block.to_do [{ plain_text := "Buy milk" }] false false BlockList.nil)
          BlockList.nil))
      (some "export/pages/Notes")).1
      = "## Intro\n\n[ ] Buy milk\n" := rfl

/-! ## C7 -/

/-- Counterexample to C7 as stated: a `column_list` block with one
paragraph child renders to no markup at all (the child is dropped), while
transparent rendering of the children would produce `"hi\n\n"`. -/
theorem column_transparency_counterexample :
    (process_block exEnv
        (Block.column_list true
          (BlockList.cons (Block.paragraph [{ plain_text := "hi" }] false BlockList.nil)
            BlockList.nil))
        (some "p")).1 = ""
    ∧ (blocks_to_markdown exEnv
        (BlockList.cons (Block.paragraph [{ plain_text := "hi" }] false BlockList.nil)
          BlockList.nil) (some "p")).1 = "hi\n\n"
    ∧ (process_block exEnv
        (Block.column_list true
          (BlockList.cons (Block.paragraph [{ plain_text := "hi" }] false BlockList.nil)
            BlockList.nil))
        (some "p")).1
      ≠ (blocks_to_markdown exEnv
        (BlockList.cons (Block.paragraph [{ plain_text := "hi" }] false BlockList.nil)
          BlockList.nil) (some "p")).1 := by
  exact ⟨rfl, rfl, by decide⟩

/-- C7 amended: `column_list` and `column` blocks have no dispatch branch
and fall through to the unsupported-kind arm — a logged warning, no
markup, and their children are not rendered. -/
theorem column_blocks_unsupported :
    (∀ (env : Env) (pagePath : Option String) (hc : Bool) (ch : BlockList),
      process_block env (Block.column_list hc ch) pagePath
        = ("", [Log.warn "Unsupported block type: column_list"]))
    ∧ (∀ (env : Env) (pagePath : Option String) (hc : Bool) (ch : BlockList),
      process_block env (Block.column hc ch) pagePath
        = ("", [Log.warn "Unsupported block type: column"])) :=
  ⟨fun _ _ _ _ => rfl, fun _ _ _ _ => rfl⟩

/-! ## C6 -/

/-- C6: per-block error containment — a document's render is the plain
concatenation of its blocks' independent renders (one block's failure
cannot abort its siblings), an unrecognized block kind contributes no
markup and only a logged warning, and a block whose remote call fails
(the `child_database` retrieval) degrades to an empty fragment plus an
error log entry instead of propagating an exception. -/
theorem per_block_error_containment :
    (∀ (env : Env) (bs : BlockList) (pagePath : Option String),
      (blocks_to_markdown env bs pagePath).1
        = joinAll (bs.toList.map (fun b => (process_block env b pagePath).1)))
    ∧ (∀ (env : Env) (ty : String) (pagePath : Option String),
      process_block env (Block.unsupported ty) pagePath
        = ("", [Log.warn ("Unsupported block type: " ++ ty)]))
    ∧ (∀ (env : Env) (id : String) (pagePath : Option String) (e : String),
      env.retrieveDatabase id = Except.error e →
      process_block env (Block.child_database id) pagePath
        = ("", [Log.error ("Error processing block child_database: " ++ e)])) := by
  refine ⟨fun env bs pagePath => blocks_to_markdown_join env pagePath bs,
          fun _ _ _ => rfl, ?_⟩
  intro env id pagePath e he
  show (match env.retrieveDatabase id with
        | .error e => ("", [Log.error ("Error processing block child_database: " ++ e)])
        | .ok title => _) = _
  rw [he]

/-- Witness for C6's failing-call clause: the concrete environment whose
database retrieval raises. -/
theorem per_block_error_containment_witness :
    process_block exEnv (Block.child_database "dbid") (some "p")
      = ("", [Log.error "Error processing block child_database: HTTPError"]) :=
  per_block_error_containment.2.2 exEnv "dbid" (some "p") "HTTPError" rfl

/-! ## C5 -/

/-- A one-property, zero-entry database. -/
def emptyDb : DatabaseObj := { id := "d", propNames := ["Name"], entries := [] }

/-- A two-property, one-entry database. -/
def oneRowDb : DatabaseObj :=
  { id := "d"
    propNames := ["Name", "Done"]
    entries := [[("Name", PropVal.title [{ plain_text := "Row1" }]),
                 ("Done", PropVal.checkbox true)]] }

/-- Counterexample to C5 as stated: for a database with `N = 0` rows and
`M = 1` declared property, the claimed shape is exactly the header row,
but `export_database_to_csv` returns the empty string (the
`if not all_entries: return ''` branch). -/
theorem tabular_empty_counterexample :
    export_database_to_csv emptyDb = ""
    ∧ export_database_to_csv emptyDb ≠ csvRow ["Name"] :=
  ⟨rfl, by decide⟩

/-- A one-property, one-entry database whose single cell is an empty
(JSON `null`) select — the shape the API produces for an empty cell. -/
def nullSelectDb : DatabaseObj :=
  { id := "d", propNames := ["Tag"], entries := [[("Tag", PropVal.select none)]] }

theorem entryRow_length (e : List (String × PropVal)) :
    ∀ (propNames : List String) (r : List String),
      entryRow propNames e = Except.ok r → r.length = propNames.length := by
  intro propNames
  induction propNames with
  | nil =>
    intro r hr
    rw [entryRow] at hr
    cases hr
    rfl
  | cons hn hs ih =>
    intro r hr
    rw [entryRow] at hr
    cases hc : entryCell e hn with
    | error err =>
      rw [hc] at hr
      simp at hr
    | ok v =>
      rw [hc] at hr
      cases ht : entryRow hs e with
      | error err =>
        rw [ht] at hr
        simp at hr
      | ok vs =>
        rw [ht] at hr
        simp only [Except.ok.injEq] at hr
        subst hr
        simp [ih vs ht]

theorem allRows_length (propNames : List String) :
    ∀ (es : List (List (String × PropVal))) (rows : List (List String)),
      allRows propNames es = Except.ok rows →
      rows.length = es.length ∧ ∀ r ∈ rows, r.length = propNames.length := by
  intro es
  induction es with
  | nil =>
    intro rows hr
    rw [allRows] at hr
    cases hr
    exact ⟨rfl, by simp⟩
  | cons e es ih =>
    intro rows hr
    rw [allRows] at hr
    cases hc : entryRow propNames e with
    | error err =>
      rw [hc] at hr
      simp at hr
    | ok r =>
      rw [hc] at hr
      cases ht : allRows propNames es with
      | error err =>
        rw [ht] at hr
        simp at hr
      | ok rs =>
        rw [ht] at hr
        simp only [Except.ok.injEq] at hr
        subst hr
        obtain ⟨hlen, hall⟩ := ih rs ht
        refine ⟨by simp [hlen], ?_⟩
        intro q hq
        rcases List.mem_cons.mp hq with hq | hq
        · subst hq
          exact entryRow_length e propNames q hc
        · exact hall q hq

/-- C5 amended: for a database with `N ≥ 1` rows and `M` declared
properties whose cell extraction raises no exception, the tabular output
is the concatenation of one header row — the `M` property names in
schema declaration order — and exactly `N` data rows in entry order,
each with `M` fields, every field of every row fully quoted.  If
extracting any cell raises (e.g. a JSON-`null` select/date/status cell,
where `.get` on `None` raises `AttributeError`), the function's `except`
catches it and the whole export is the empty string. -/
theorem tabular_export_shape (db : DatabaseObj) (h : db.entries ≠ []) :
    (∀ rows : List (List String),
      allRows db.propNames db.entries = Except.ok rows →
      export_database_to_csv db = joinAll ((db.propNames :: rows).map csvRow)
      ∧ rows.length = db.entries.length
      ∧ (∀ r ∈ rows, r.length = db.propNames.length))
    ∧ (∀ e : String, allRows db.propNames db.entries = Except.error e →
        export_database_to_csv db = "")
    ∧ (∀ r : List String,
        csvRow r
          = String.intercalate "," (r.map (fun f => "\"" ++ csvEscape f ++ "\"")) ++ "\n") := by
  refine ⟨?_, ?_, fun r => rfl⟩
  · intro rows hrows
    obtain ⟨hlen, hall⟩ := allRows_length db.propNames db.entries rows hrows
    refine ⟨?_, hlen, hall⟩
    rw [export_database_to_csv, if_neg (by simpa [List.isEmpty_iff] using h), hrows]
    rfl
  · intro e he
    rw [export_database_to_csv, if_neg (by simpa [List.isEmpty_iff] using h), he]

/-- Witness for C5 at two concrete one-row databases: one whose cells
all extract, giving the header-plus-rows shape, and one holding a
`null` select cell, whose export collapses to the empty string. -/
theorem tabular_export_shape_witness :
    export_database_to_csv oneRowDb
      = joinAll ((oneRowDb.propNames :: [["Row1", "True"]]).map csvRow)
    ∧ export_database_to_csv nullSelectDb = "" := by
  refine ⟨((tabular_export_shape oneRowDb (List.cons_ne_nil _ _)).1
      [["Row1", "True"]] (by rfl)).1, ?_⟩
  exact (tabular_export_shape nullSelectDb (List.cons_ne_nil _ _)).2.1
    "AttributeError" (by rfl)

/-! ## C1 -/

/-- The empty filesystem. -/
def fs0 : FS := { dirs := [], files := [] }

/-- Counterexample to C1 as stated: with local persistence enabled, an
*empty* rendered artifact is never written even when the output file is
absent — `if not content: … continue` fires before the compare-and-write
— contradicting the claimed "written if and only if the file is absent or
differs". -/
theorem compare_and_write_empty_counterexample :
    fs0.readFile "export/pages/A/A.md" = none
    ∧ (saveOrSkip true fs0 "export/pages/A/A.md" "").2 = false
    ∧ (saveOrSkip true fs0 "export/pages/A/A.md" "").1 = fs0 := by
  decide

/-- C1 amended: with local persistence enabled and a nonempty rendered
artifact, the file is written if and only if it is absent or its bytes
differ; after one save the file holds exactly the rendered bytes, so a
second save of the same content is byte-identical and performs zero
writes. -/
theorem compare_and_write_iff (lb : Bool) (fs : FS) (p c : String)
    (hlb : lb = true) (hc : c ≠ "") :
    ((saveOrSkip lb fs p c).2 = true ↔ fs.readFile p ≠ some c)
    ∧ (saveOrSkip lb fs p c).1.readFile p = some c
    ∧ saveOrSkip lb (saveOrSkip lb fs p c).1 p c = ((saveOrSkip lb fs p c).1, false) := by
  subst hlb
  have hread : ∀ (g : FS) (content : String),
      (g.writeFile p content).readFile p = some content := by
    intro g content
    show List.lookup p ((p, content) :: _) = some content
    simp [List.lookup]
  have hsave : (saveOrSkip true fs p c).1.readFile p = some c := by
    rw [saveOrSkip, if_neg hc, if_pos rfl, save_if_changed]
    cases hr : fs.readFile p with
    | none => exact hread fs c
    | some old =>
      by_cases hold : old = c
      · subst hold
        simpa using hr
      · simpa [hold] using hread fs c
  refine ⟨?_, hsave, ?_⟩
  · rw [saveOrSkip, if_neg hc, if_pos rfl, save_if_changed]
    cases hr : fs.readFile p with
    | none => simp
    | some old =>
      by_cases hold : old = c
      · subst hold
        simp [hr]
      · simp [hold, hr]
  · rw [saveOrSkip, if_neg hc, if_pos rfl, save_if_changed, hsave]
    simp

/-- Witness for C1 at a concrete absent-file save. -/
theorem compare_and_write_iff_witness :
    (((saveOrSkip true fs0 "export/pages/A/A.md" "hi").2 = true
        ↔ fs0.readFile "export/pages/A/A.md" ≠ some "hi")
      ∧ (saveOrSkip true fs0 "export/pages/A/A.md" "hi").1.readFile "export/pages/A/A.md"
          = some "hi"
      ∧ saveOrSkip true (saveOrSkip true fs0 "export/pages/A/A.md" "hi").1
          "export/pages/A/A.md" "hi"
          = ((saveOrSkip true fs0 "export/pages/A/A.md" "hi").1, false)) :=
  compare_and_write_iff true fs0 "export/pages/A/A.md" "hi" rfl (by decide)

/-! ## C10 -/

theorem dropWhile_head?_not {α : Type} (p : α → Bool) (l : List α) (c : α)
    (h : (l.dropWhile p).head? = some c) : p c = false := by
  induction l with
  | nil => simp [List.dropWhile] at h
  | cons a l ih =>
    cases hpa : p a with
    | true =>
      rw [List.dropWhile_cons_of_pos hpa] at h
      exact ih h
    | false =>
      rw [List.dropWhile_cons_of_neg (by simp [hpa])] at h
      simp only [List.head?_cons, Option.some.injEq] at h
      subst h
      exact hpa

theorem stripEnd_front {α : Type} (p : α → Bool) (l : List α) :
    (l.reverse.dropWhile p).reverse <+: l :=
  List.reverse_suffix.mp (by simpa using (List.dropWhile_suffix (l := l.reverse) p))

theorem isPrefix_head?_eq {α : Type} {l₁ l₂ : List α} (h : l₁ <+: l₂) (c : α)
    (hc : l₁.head? = some c) : l₂.head? = some c := by
  obtain ⟨t, rfl⟩ := h
  cases l₁ with
  | nil => simp at hc
  | cons a l => simpa using hc

theorem pyStrip_head?_not (l : List Char) (c : Char)
    (hc : (pyStrip l).head? = some c) : pyStripChar c = false :=
  dropWhile_head?_not pyStripChar l c
    (isPrefix_head?_eq (stripEnd_front pyStripChar (l.dropWhile pyStripChar)) c hc)

theorem pyStrip_getLast?_not (l : List Char) (c : Char)
    (hc : (pyStrip l).getLast? = some c) : pyStripChar c = false := by
  rw [pyStrip, List.getLast?_reverse] at hc
  exact dropWhile_head?_not pyStripChar _ c hc

theorem pyStrip_subset (l : List Char) : pyStrip l ⊆ l := by
  intro c hc
  rw [pyStrip, List.mem_reverse] at hc
  have h1 := (List.dropWhile_sublist _).subset hc
  rw [List.mem_reverse] at h1
  exact (List.dropWhile_sublist _).subset h1

theorem dropWhile_eq_self_of_head {α : Type} (p : α → Bool) (l : List α)
    (h : ∀ c, l.head? = some c → p c = false) : l.dropWhile p = l := by
  cases l with
  | nil => rfl
  | cons a t => exact List.dropWhile_cons_of_neg (by simp [h a rfl])

theorem pyStrip_idem (l : List Char) : pyStrip (pyStrip l) = pyStrip l := by
  have h1 : (pyStrip l).dropWhile pyStripChar = pyStrip l :=
    dropWhile_eq_self_of_head _ _ (fun c hc => pyStrip_head?_not l c hc)
  have h2 : (pyStrip l).reverse.dropWhile pyStripChar = (pyStrip l).reverse :=
    dropWhile_eq_self_of_head _ _ (fun c hc => by
      rw [List.head?_reverse] at hc
      exact pyStrip_getLast?_not l c hc)
  rw [pyStrip, h1, h2, List.reverse_reverse]

theorem uniqueNameLoop_shape (fs : FS) (parent base : String) (fuel : Nat) :
    ∀ count : Nat, ∃ n : Nat,
      uniqueNameLoop fs parent base count fuel = base ++ " (" ++ toString n ++ ")" := by
  induction fuel with
  | zero => exact fun count => ⟨count, rfl⟩
  | succ fuel ih =>
    intro count
    show (∃ n, (if FS.existsPath fs (pjoin parent (base ++ " (" ++ toString count ++ ")"))
        then uniqueNameLoop fs parent base (count + 1) fuel
        else base ++ " (" ++ toString count ++ ")") = base ++ " (" ++ toString n ++ ")")
    by_cases h : FS.existsPath fs (pjoin parent (base ++ " (" ++ toString count ++ ")")) = true
    · rw [if_pos h]
      exact ih (count + 1)
    · rw [if_neg h]
      exact ⟨count, rfl⟩

theorem takeWhile_eq_self_append {α : Type} (p : α → Bool) (xs ys : List α)
    (hxs : ∀ x ∈ xs, p x = true) :
    (xs ++ ys).takeWhile p = xs ++ ys.takeWhile p := by
  rw [List.takeWhile_append, List.takeWhile_eq_self_iff.mpr hxs, if_pos rfl]

/-- C10: `sanitize_filename` is idempotent, its output contains none of
the forbidden characters and no leading or trailing whitespace, and the
names the exporter derives from a title go through it: the output file
name is the sanitized title plus `.md`/`.csv`, a freshly assigned
directory name is the sanitized title possibly with a ` (n)` collision
suffix, and the sanitized title is exactly the basename of the joined
path (so the rename comparison at line 743 sees it unchanged). -/
theorem sanitize_filename_properties :
    (∀ s : String, sanitize_filename (sanitize_filename s) = sanitize_filename s)
    ∧ (∀ s : String, ∀ c ∈ (sanitize_filename s).data, badChar c = false)
    ∧ (∀ (s : String) (c : Char),
        (sanitize_filename s).data.head? = some c → pyStripChar c = false)
    ∧ (∀ (s : String) (c : Char),
        (sanitize_filename s).data.getLast? = some c → pyStripChar c = false)
    ∧ (∀ (obj : Obj) (title fn : String), fileNameOf obj title = some fn →
        fn = sanitize_filename title ++ ".md" ∨ fn = sanitize_filename title ++ ".csv")
    ∧ (∀ (fs : FS) (parent title : String),
        get_unique_directory_name fs parent (sanitize_filename title)
            = sanitize_filename title
        ∨ ∃ n : Nat, get_unique_directory_name fs parent (sanitize_filename title)
            = sanitize_filename title ++ " (" ++ toString n ++ ")")
    ∧ (∀ base title : String,
        basename (pjoin base (sanitize_filename title)) = sanitize_filename title) := by
  have hbadmem : ∀ s : String, ∀ c ∈ (sanitize_filename s).data, badChar c = false := by
    intro s c hc
    have h1 : c ∈ s.data.filter (fun c => !badChar c) := pyStrip_subset _ hc
    simpa using List.of_mem_filter h1
  have hslash : ∀ (title : String), ∀ c ∈ (sanitize_filename title).data, c ≠ '/' := by
    intro title c hc heq
    have := hbadmem title c hc
    rw [heq] at this
    simp [badChar] at this
  refine ⟨?_, hbadmem, ?_, ?_, ?_, ?_, ?_⟩
  · intro s
    apply String.ext
    show pyStrip ((pyStrip (s.data.filter fun c => !badChar c)).filter fun c => !badChar c)
      = pyStrip (s.data.filter fun c => !badChar c)
    have hfil : (pyStrip (s.data.filter fun c => !badChar c)).filter (fun c => !badChar c)
        = pyStrip (s.data.filter fun c => !badChar c) := by
      rw [List.filter_eq_self]
      intro a ha
      have h2 : a ∈ List.filter (fun c => !badChar c) s.data := pyStrip_subset _ ha
      exact @List.of_mem_filter Char (fun c => !badChar c) a s.data h2
    rw [hfil, pyStrip_idem]
  · exact fun s c hc => pyStrip_head?_not _ c hc
  · exact fun s c hc => pyStrip_getLast?_not _ c hc
  · intro obj title fn h
    cases obj with
    | page =>
      refine Or.inl ?_
      simpa [fileNameOf] using h.symm
    | database =>
      refine Or.inr ?_
      simpa [fileNameOf] using h.symm
    | other => simp [fileNameOf] at h
  · intro fs parent title
    rw [get_unique_directory_name]
    by_cases h : FS.existsPath fs (pjoin parent (sanitize_filename title)) = true
    · rw [if_pos h]
      exact Or.inr (uniqueNameLoop_shape fs parent (sanitize_filename title) _ 1)
    · rw [if_neg h]
      exact Or.inl rfl
  · intro base title
    have hall : ∀ c ∈ (sanitize_filename title).data.reverse,
        (decide (c ≠ '/')) = true := by
      intro c hc
      rw [List.mem_reverse] at hc
      simpa using hslash title c hc
    rw [pjoin]
    by_cases hb : base = ""
    · rw [if_pos hb, basename]
      apply String.ext
      show ((sanitize_filename title).data.reverse.takeWhile _).reverse
        = (sanitize_filename title).data
      rw [List.takeWhile_eq_self_iff.mpr hall, List.reverse_reverse]
    · rw [if_neg hb, basename]
      apply String.ext
      show (((base ++ "/" ++ sanitize_filename title).data.reverse.takeWhile
          (fun c => decide (c ≠ '/'))).reverse) = (sanitize_filename title).data
      have hdata : (base ++ "/" ++ sanitize_filename title).data
          = (base.data ++ '/' :: []) ++ (sanitize_filename title).data := by
        simp [String.data_append]
      rw [hdata, List.reverse_append,
        takeWhile_eq_self_append _ _ _ hall]
      have : ((base.data ++ '/' :: []).reverse).takeWhile (fun c => decide (c ≠ '/')) = [] := by
        rw [List.reverse_append]
        show List.takeWhile _ ('/' :: base.data.reverse) = []
        simp [List.takeWhile]
      rw [this, List.append_nil, List.reverse_reverse]

/-- Witness for C10's conditional clauses at the concrete title
`" a<b "`, which sanitizes to `"ab"`. -/
theorem sanitize_filename_properties_witness :
    badChar 'a' = false ∧ pyStripChar 'a' = false ∧ pyStripChar 'b' = false
    ∧ ("ab.md" = sanitize_filename " a<b " ++ ".md"
       ∨ "ab.md" = sanitize_filename " a<b " ++ ".csv") := by
  refine ⟨?_, ?_, ?_, ?_⟩
  · exact sanitize_filename_properties.2.1 " a<b " 'a' (by decide)
  · exact sanitize_filename_properties.2.2.1 " a<b " 'a' (by decide)
  · exact sanitize_filename_properties.2.2.2.1 " a<b " 'b' (by decide)
  · exact sanitize_filename_properties.2.2.2.2.1 Obj.page " a<b " "ab.md" (by decide)

/-! ## Trace monotonicity of the tree walk

Every operation of the walk only appends to the event trace; this is what
turns the decomposition equalities of C2/C3 into ordering statements. -/

/-- `s` was reached from a state whose trace was `t` by appending
events. -/
def TraceExt (s : St) (t : List Ev) : Prop := ∃ e, s.trace = t ++ e

theorem TraceExt.of_self (s : St) : TraceExt s s.trace := ⟨[], by simp⟩

theorem TraceExt.log {s : St} {t : List Ev} (e : Ev) (h : TraceExt s t) :
    TraceExt (s.log e) t := by
  obtain ⟨x, hx⟩ := h
  exact ⟨x ++ [e], by simp [St.log, hx]⟩

theorem TraceExt.setFs {s : St} {t : List Ev} (fs : FS) (h : TraceExt s t) :
    TraceExt { s with fs := fs } t := h

theorem TraceExt.setReg {s : St} {t : List Ev} (r : List (String × String))
    (h : TraceExt s t) : TraceExt { s with reg := r } t := h

theorem TraceExt.catch {r : St × Bool} {t : List Ev} (h : TraceExt r.1 t) :
    TraceExt (catchSt r) t := by
  rw [catchSt]
  by_cases hb : r.2 = true
  · rw [if_pos hb]
    exact h.log _
  · rw [if_neg hb]
    exact h

theorem TraceExt.savePh {s : St} {t : List Ev} (cfg : Cfg) (id fp c : String)
    (h : TraceExt s t) : TraceExt (savePhase cfg s id fp c) t := by
  rw [savePhase]
  by_cases hb : cfg.localBackup = true
  · rw [if_pos hb]
    exact (h.setFs _).log _
  · rw [if_neg hb]
    exact h

theorem TraceExt.ensure {s : St} {t : List Ev} (cfg : Cfg) (h : TraceExt s t) :
    TraceExt (ensureExportRoot cfg s) t := by
  rw [ensureExportRoot]
  by_cases hb : cfg.localBackup = true
  · rw [if_pos hb]
    exact h.setFs _
  · rw [if_neg hb]
    exact h

theorem TraceExt.above {a s : St} {t : List Ev} (h1 : TraceExt a s.trace)
    (h2 : TraceExt s t) : TraceExt a t := by
  obtain ⟨x, hx⟩ := h1
  obtain ⟨y, hy⟩ := h2
  exact ⟨y ++ x, by rw [hx, hy, List.append_assoc]⟩

theorem freshAssign_traceExt (cfg : Cfg) (st : St) (pp id title : String) :
    TraceExt (freshAssign cfg st pp id title).1 st.trace := by
  rw [freshAssign]
  by_cases h : pp ≠ "" <;> simp [h] <;> exact TraceExt.of_self st

theorem locateItem_traceExt (cfg : Cfg) (st : St) (pp id title : String) :
    TraceExt (locateItem cfg st pp id title).1 st.trace := by
  rw [locateItem]
  have hlog : TraceExt (st.log (Ev.locate id)) st.trace :=
    (TraceExt.of_self st).log _
  cases hreg : (st.log (Ev.locate id)).reg.lookup id with
  | none =>
    simp only [hreg]
    exact (freshAssign_traceExt cfg _ pp id title).above hlog
  | some rel =>
    simp only [hreg]
    by_cases h2 : rel = ""
    · rw [if_pos h2]
      exact (freshAssign_traceExt cfg _ pp id title).above hlog
    · rw [if_neg h2]
      by_cases h3 : basename (pjoin cfg.exportPath rel) ≠ sanitize_filename title
      · rw [if_pos h3]
        cases hr : os_rename (st.log (Ev.locate id)).fs (pjoin cfg.exportPath rel)
            (pjoin (dirname (pjoin cfg.exportPath rel)) (sanitize_filename title)) with
        | none =>
          simp only [hr]
          exact hlog
        | some fs1 =>
          simp only [hr]
          exact ((((hlog.setFs fs1).setReg _).log _).setFs _)
      · rw [if_neg h3]
        exact hlog.setFs _

mutual

theorem exportItem_traceExt (cfg : Cfg) :
    ∀ (it : Item) (st : St) (pp : String),
      TraceExt (exportItem cfg st pp it).1 st.trace
  | .mk id title obj content entries children, st, pp => by
    have hloc := locateItem_traceExt cfg st pp id title
    simp only [exportItem]
    rcases hl : locateItem cfg st pp id title with ⟨st1, opath⟩
    rw [hl] at hloc
    cases opath with
    | none =>
      dsimp only
      exact hloc
    | some path =>
      dsimp only
      cases hfn : fileNameOf obj title with
      | none =>
        dsimp only
        exact hloc.log _
      | some fname =>
        dsimp only
        have h2 : TraceExt (st1.log (Ev.rendered id)) st.trace := hloc.log _
        have h3 : TraceExt
            (if decide (obj = Obj.database) && !entries.isNil then
              catchSt (exportLoop cfg (ensureExportRoot cfg (st1.log (Ev.rendered id)))
                path entries)
            else st1.log (Ev.rendered id)) st.trace := by
          by_cases hdb : (decide (obj = Obj.database) && !entries.isNil) = true
          · rw [if_pos hdb]
            exact (TraceExt.catch
              ((exportLoop_traceExt cfg entries _ path).above (h2.ensure cfg)))
          · rw [if_neg hdb]
            exact h2
        by_cases hc : content = ""
        · rw [if_pos hc]
          exact h3.log _
        · rw [if_neg hc]
          have h4 : TraceExt
              (savePhase cfg
                (if decide (obj = Obj.database) && !entries.isNil then
                  catchSt (exportLoop cfg
                    (ensureExportRoot cfg (st1.log (Ev.rendered id))) path entries)
                else st1.log (Ev.rendered id)) id (pjoin path fname) content) st.trace :=
            h3.savePh cfg id (pjoin path fname) content
          by_cases hch : children.isNil = true
          · rw [if_pos hch]
            exact h4
          · rw [if_neg hch]
            exact TraceExt.catch
              ((exportLoop_traceExt cfg children _ path).above (h4.ensure cfg))

theorem exportLoop_traceExt (cfg : Cfg) :
    ∀ (items : ItemList) (st : St) (pp : String),
      TraceExt (exportLoop cfg st pp items).1 st.trace
  | .nil, st, pp => TraceExt.of_self st
  | .cons it rest, st, pp => by
    simp only [exportLoop]
    have h1 := exportItem_traceExt cfg it st pp
    by_cases hr : (exportItem cfg st pp it).2 = true
    · rw [if_pos hr]
      exact h1
    · rw [if_neg hr]
      exact (exportLoop_traceExt cfg rest _ pp).above h1

end

theorem export_pages_traceExt (cfg : Cfg) (st : St) (items : ItemList) (pp : String) :
    ∃ ext, (export_pages cfg st items pp).trace = st.trace ++ ext :=
  TraceExt.catch ((exportLoop_traceExt cfg items _ pp).above
    ((TraceExt.of_self st).ensure cfg))

/-! ## C2 -/

theorem locateItem_rename_fails (cfg : Cfg) (st : St) (pp id title rel : String)
    (h1 : st.reg.lookup id = some rel) (h2 : rel ≠ "")
    (h3 : basename (pjoin cfg.exportPath rel) ≠ sanitize_filename title)
    (h4 : os_rename st.fs (pjoin cfg.exportPath rel)
        (pjoin (dirname (pjoin cfg.exportPath rel)) (sanitize_filename title)) = none) :
    locateItem cfg st pp id title = (st.log (Ev.locate id), none) := by
  rw [locateItem]
  dsimp only [St.log]
  rw [h1]
  dsimp only
  rw [if_neg h2, if_pos h3, h4]

/-- C2 amended: when a document has a truthy registry entry whose on-disk
basename differs from the sanitized current title and the directory
rename fails, the registry mapping, the filesystem and every later
sibling are left untouched: the raised exception is caught by
`export_pages`'s own `except` (so the run is not fatally aborted and the
error is logged), but because the `try` wraps the whole `for` loop, the
remaining sibling documents of the same call are *skipped*, not
exported — the run state afterwards is exactly the incoming state plus
the two log events. -/
theorem rename_failure_containment (cfg : Cfg) (st : St) (pp : String)
    (id title : String) (obj : Obj) (content : String)
    (entries children rest : ItemList) (rel : String)
    (hroot : ensureExportRoot cfg st = st)
    (h1 : st.reg.lookup id = some rel) (h2 : rel ≠ "")
    (h3 : basename (pjoin cfg.exportPath rel) ≠ sanitize_filename title)
    (h4 : os_rename st.fs (pjoin cfg.exportPath rel)
        (pjoin (dirname (pjoin cfg.exportPath rel)) (sanitize_filename title)) = none) :
    export_pages cfg st
        (ItemList.cons (Item.mk id title obj content entries children) rest) pp
      = { st with trace := st.trace ++ [Ev.locate id, Ev.errorCaught] } := by
  rw [export_pages, hroot]
  simp only [exportLoop, exportItem]
  rw [locateItem_rename_fails cfg st pp id title rel h1 h2 h3 h4]
  dsimp only
  simp [catchSt, St.log]

/-- Configuration of the concrete rename-failure run. -/
def tCfg : Cfg := { exportPath := "export", rootDirName := "pages", localBackup := true }

/-- Filesystem where document A's directory is `export/pages/Old` but an
unrelated *non-empty* directory already occupies the rename target
`export/pages/New` (it holds a file, so `os.rename` fails with
`ENOTEMPTY` on Linux rather than silently replacing it). -/
def tFS : FS :=
  { dirs := ["export", "export/pages", "export/pages/Old", "export/pages/New"],
    files := [("export/pages/New/Note.md", "x")] }

/-- State with A registered at `pages/Old`. -/
def tSt : St := { fs := tFS, reg := [("A", "pages/Old")], trace := [] }

/-- Document A, renamed remotely to `New`. -/
def tA : Item := Item.mk "A" "New" Obj.page "hi" ItemList.nil ItemList.nil

/-- Sibling document B, listed after A. -/
def tB : Item := Item.mk "B" "Bee" Obj.page "hi" ItemList.nil ItemList.nil

/-- Witness for C2 at the concrete failing rename. -/
theorem rename_failure_containment_witness :
    export_pages tCfg tSt (ItemList.cons tA (ItemList.cons tB ItemList.nil)) ""
      = { tSt with trace := tSt.trace ++ [Ev.locate "A", Ev.errorCaught] } :=
  rename_failure_containment tCfg tSt "" "A" "New" Obj.page "hi"
    ItemList.nil ItemList.nil (ItemList.cons tB ItemList.nil) "pages/Old"
    (by decide) (by decide) (by decide) (by decide) (by decide)

/-- Counterexample to C2 as stated: after A's rename genuinely fails
(the target directory is non-empty), traversal does **not** continue
with the remaining sibling B — the run's whole trace is A's locate plus
the caught error, B is never visited, gets no registry entry, and the
filesystem is wholly untouched. -/
theorem rename_failure_sibling_counterexample :
    (export_pages tCfg tSt (ItemList.cons tA (ItemList.cons tB ItemList.nil)) "").trace
        = [Ev.locate "A", Ev.errorCaught]
    ∧ (export_pages tCfg tSt (ItemList.cons tA (ItemList.cons tB ItemList.nil)) "").reg.lookup "B"
        = none
    ∧ (export_pages tCfg tSt (ItemList.cons tA (ItemList.cons tB ItemList.nil)) "").fs
        = tSt.fs := by
  decide

/-! ## C3 -/

/-- Is this event the compare-and-write step of document `id`? -/
def isSaveOf (id : String) : Ev → Bool
  | .saveStep i _ => i = id
  | _ => false

/-- Is this event the locate step of document `id`? -/
def isLocateOf (id : String) : Ev → Bool
  | .locate i => i = id
  | _ => false

/-- Row-page E of the concrete database run. -/
def dE : Item := Item.mk "E" "Row" Obj.page "hi" ItemList.nil ItemList.nil

/-- Database D with one entry E. -/
def dD : Item :=
  Item.mk "D" "Db" Obj.database "csv" (ItemList.cons dE ItemList.nil) ItemList.nil

/-- Empty starting state. -/
def dSt : St := { fs := fs0, reg := [], trace := [] }

/-- Counterexample to C3 as stated: in the concrete database run, the
row-page E is visited (trace index 2) *before* the database's own
compare-and-write step (trace index 5), so a database document is not
"fully written before any of its children are visited". -/
theorem traversal_ordering_counterexample :
    (export_pages tCfg dSt (ItemList.cons dD ItemList.nil) "").trace.findIdx?
        (isLocateOf "E") = some 2
    ∧ (export_pages tCfg dSt (ItemList.cons dD ItemList.nil) "").trace.findIdx?
        (isSaveOf "D") = some 5 := by
  decide

/-- C3 amended: for a document whose locate phase succeeds and whose
rendered content is nonempty, a *page* is rendered and compare-and-written
before its children are exported (children recurse via `export_pages`
with the page's output path as the new parent path, and `export_pages`
only appends events); a *database* is rendered first, but its row-pages
are exported *before* its own compare-and-write step, which precedes the
export of its `get_child_pages` children.  The save phase appends exactly
one `saveStep` event when local backup is enabled. -/
theorem traversal_ordering (cfg : Cfg) (st st1 : St) (pp path : String)
    (id title : String) (obj : Obj) (content : String) (entries children : ItemList)
    (hloc : locateItem cfg st pp id title = (st1, some path))
    (hc : content ≠ "") :
    (obj = Obj.page →
      exportItem cfg st pp (Item.mk id title obj content entries children)
        = (let stS := savePhase cfg (St.log st1 (Ev.rendered id)) id
              (pjoin path (sanitize_filename title ++ ".md")) content
           ((if children.isNil then stS else export_pages cfg stS children path), false)))
    ∧ (obj = Obj.database →
      exportItem cfg st pp (Item.mk id title obj content entries children)
        = (let stE := if entries.isNil then St.log st1 (Ev.rendered id)
              else export_pages cfg (St.log st1 (Ev.rendered id)) entries path
           let stS := savePhase cfg stE id
              (pjoin path (sanitize_filename title ++ ".csv")) content
           ((if children.isNil then stS else export_pages cfg stS children path), false)))
    ∧ (∀ (st2 : St) (fp : String), cfg.localBackup = true →
        ∃ w : Bool, (savePhase cfg st2 id fp content).trace
          = st2.trace ++ [Ev.saveStep id w])
    ∧ (∀ (s : St) (its : ItemList) (q : String),
        ∃ ext, (export_pages cfg s its q).trace = s.trace ++ ext) := by
  refine ⟨?_, ?_, ?_, fun s its q => export_pages_traceExt cfg s its q⟩
  · intro hobj
    subst hobj
    simp only [exportItem]
    rw [hloc]
    dsimp only [fileNameOf]
    rw [if_neg hc]
    rfl
  · intro hobj
    subst hobj
    simp only [exportItem]
    rw [hloc]
    dsimp only [fileNameOf]
    rw [if_neg hc]
    cases entries with
    | nil => rfl
    | cons e tl => rfl
  · intro st2 fp hlb
    rw [savePhase, if_pos hlb]
    exact ⟨(save_if_changed st2.fs fp content).2, rfl⟩

/-- Witness for C3's page clause at a concrete fresh page. -/
theorem traversal_ordering_witness :
    exportItem tCfg dSt "" (Item.mk "P" "Page" Obj.page "hi" ItemList.nil ItemList.nil)
      = (savePhase tCfg (St.log (locateItem tCfg dSt "" "P" "Page").1 (Ev.rendered "P"))
          "P" (pjoin "export/pages/Page" (sanitize_filename "Page" ++ ".md")) "hi",
         false) := by
  have h := (traversal_ordering tCfg dSt (locateItem tCfg dSt "" "P" "Page").1 ""
      "export/pages/Page" "P" "Page" Obj.page "hi" ItemList.nil ItemList.nil
      (by rfl) (by decide)).1 rfl
  simpa [ItemList.isNil] using h

end NotionExport
